import Mathlib

/-!
Verification development for the TSCN datamine core (src/datamine.py):
the resource data model, the slash-path query engine (`TSCNResource.query`),
the document parser (`TSCN.parse_file`, embedded here as `TSCN.parse` over the
file's text), and the selector predicate engine (`Selector.parse`,
`TSCN.select`).  Python's dynamic behaviour is embedded explicitly: machine
exceptions become the `PyExc` error type of `Except`, Python runtime values
reachable during a path walk become `PyVal`, and the regular expressions used
by the parser are translated into deterministic character-list scanners that
realise the same backtracking outcomes (the relevant patterns are analysed in
comments next to each scanner).  All definitions are executable; strings are
handled through their underlying character lists so that concrete runs reduce
inside the kernel.
-/

/-- Python exception kinds raised by the embedded code. -/
inductive PyExc where
  | typeError
  | keyError
  | indexError
  | attributeError
  | valueError
deriving DecidableEq, Repr

deriving instance DecidableEq for Except

/-- One parsed resource (class `TSCNResource`): the positional
`resource_type`, the header attributes installed one by one via
`setattr(self, k, v)` from the keyword arguments, and the ordered `entries`
dict of body key/value pairs.  Every stored value in the program is a
string, so both maps are string-valued. -/
structure TSCNResource where
  resource_type : String
  attrs : List (String × String)
  entries : List (String × String)
deriving DecidableEq, Repr

/-- Python runtime values reachable while resolving a query path:
`None` (the stock default), strings (attribute values, entry values and
single characters produced by string indexing), the `entries` dict, the
resource object itself, and bound methods looked up on the class. -/
inductive PyVal where
  | vNone
  | vStr (s : String)
  | vDict (d : List (String × String))
  | vRes (r : TSCNResource)
  | vMethod (name : String)
deriving DecidableEq, Repr

/-- A path segment after the parser's numeric conversion
(`x if not x.isnumeric() else int(x)`). -/
inductive Seg where
  | key (s : String)
  | idx (i : Nat)
deriving DecidableEq, Repr

/-- Ordered-dict lookup (`d[k]` / `k in d` support). -/
def dictGet? {α : Type} (d : List (String × α)) (k : String) : Option α :=
  match d.find? (fun kv => kv.1 == k) with
  | some kv => some kv.2
  | none => none

/-- Ordered-dict update `d[k] = v`: an existing key keeps its position and
receives the new value, a new key is appended (CPython dict semantics). -/
def dictSet {α : Type} (d : List (String × α)) (k : String) (v : α) :
    List (String × α) :=
  if d.any (fun kv => kv.1 == k) then
    d.map (fun kv => if kv.1 == k then (k, v) else kv)
  else d ++ [(k, v)]

/-- Attribute names found on every `TSCNResource` instance through its class
(`query`, the dunder machinery inherited from `object`, and the methods
defined on the class).  `hasattr`/`getattr` succeed on these even when the
instance dict does not contain the name. -/
def resourceClassAttrs : List String :=
  ["query", "__init__", "__str__", "__getitem__", "__class__", "__delattr__",
   "__dict__", "__dir__", "__doc__", "__eq__", "__format__", "__ge__",
   "__getattribute__", "__gt__", "__hash__", "__init_subclass__", "__le__",
   "__lt__", "__module__", "__ne__", "__new__", "__reduce__",
   "__reduce_ex__", "__repr__", "__setattr__", "__sizeof__",
   "__subclasshook__", "__weakref__"]

/-- `getattr(resource, name)`.  The instance dict is written in order
`resource_type`, `entries`, then each keyword attribute, so a keyword
attribute that reuses one of the first two names overwrites it — hence the
keyword attributes are consulted first.  Class attributes (methods) come
last; a missing name raises `AttributeError`. -/
def pyGetattr (r : TSCNResource) (name : String) : Except PyExc PyVal :=
  match dictGet? r.attrs name with
  | some v => .ok (.vStr v)
  | none =>
    if name == "resource_type" then .ok (.vStr r.resource_type)
    else if name == "entries" then .ok (.vDict r.entries)
    else if resourceClassAttrs.contains name then .ok (.vMethod name)
    else .error .attributeError

/-- `hasattr(resource, name)` is `getattr` not raising. -/
def hasattrR (r : TSCNResource) (name : String) : Bool :=
  (pyGetattr r name).isOk

/-- One `operator.getitem` step of the `reduce` in `TSCNResource.query`.
`TSCNResource.__getitem__` delegates to `getattr`, so an integer segment on
the resource raises `TypeError` (attribute names must be strings); a dict
indexed with an absent key (or an integer, which no string key equals)
raises `KeyError`; a string indexed in range yields the one-character
string, out of range raises `IndexError`, and with a string key raises
`TypeError`; methods and `None` are not subscriptable. -/
def pyGetitem (val : PyVal) (seg : Seg) : Except PyExc PyVal :=
  match val, seg with
  | .vRes r, .key s => pyGetattr r s
  | .vRes _, .idx _ => .error .typeError
  | .vDict d, .key s =>
    match dictGet? d s with
    | some v => .ok (.vStr v)
    | none => .error .keyError
  | .vDict _, .idx _ => .error .keyError
  | .vStr s, .idx i =>
    match s.data.get? i with
    | some c => .ok (.vStr (String.mk [c]))
    | none => .error .indexError
  | .vStr _, .key _ => .error .typeError
  | .vMethod _, _ => .error .typeError
  | .vNone, _ => .error .typeError

/-- `reduce(getitem, path, init)`: left-to-right indexing, first raised
exception aborts the walk. -/
def walk : PyVal → List Seg → Except PyExc PyVal
  | v, [] => .ok v
  | v, s :: ss =>
    match pyGetitem v s with
    | .error e => .error e
    | .ok v2 => walk v2 ss

/-- `str.split("/")` on the underlying characters (Python and Lean agree:
an empty string yields `[""]`, adjacent separators yield empty pieces). -/
def splitOnSlash : List Char → List (List Char)
  | [] => [[]]
  | c :: rest =>
    if c = '/' then [] :: splitOnSlash rest
    else
      match splitOnSlash rest with
      | s :: ss => (c :: s) :: ss
      | [] => [[c]]

/-- `str.isnumeric()` restricted to the ASCII inputs this program feeds it
(all path segments and values originate from ASCII text): nonempty and all
decimal digits. -/
def pyIsNumeric (s : String) : Bool :=
  !s.data.isEmpty && s.data.all (fun c => c.isDigit)

/-- Decimal value of a digit list. -/
def natOfDigits (cs : List Char) : Nat :=
  cs.foldl (fun a c => a * 10 + (c.toNat - 48)) 0

/-- The per-segment conversion in `query`:
`x if not x.isnumeric() else int(x)`. -/
def toSeg (s : String) : Seg :=
  if pyIsNumeric s then .idx (natOfDigits s.data) else .key s

/-- The `path` argument of `query`: a string, a list of segment strings, or
any other object (which fails the `isinstance` checks). -/
inductive PathInput where
  | str (s : String)
  | list (l : List String)
  | other
deriving DecidableEq, Repr

/-- The segment list `query` works on after the two `isinstance` tests:
a string is split on `/`, a list is taken as is, anything else is rejected
(`none` stands for the non-list branch returning the default). -/
def segsOf : PathInput → Option (List String)
  | .str s => some ((splitOnSlash s.data).map (fun cs => String.mk cs))
  | .list l => some l
  | .other => none

/-- `TSCNResource.query(path, default)` (src/datamine.py lines 33-47).
After splitting/validating the path and converting numeric segments,
`hasattr(self, path[0])` is consulted first — raising `TypeError` when the
first segment converted to an integer — then `path[0] in self.entries`;
whichever hits starts an unguarded `reduce(getitem, …)` whose exceptions
propagate.  Only when neither test hits (or the path is empty or not a
string/list) is the caller's default returned. -/
def TSCNResource.query (r : TSCNResource) (p : PathInput) (default : PyVal) :
    Except PyExc PyVal :=
  match segsOf p with
  | none => .ok default
  | some segs =>
    match segs with
    | [] => .ok default
    | s0 :: _ =>
      match toSeg s0 with
      | .idx _ => .error .typeError
      | .key key0 =>
        if hasattrR r key0 then walk (.vRes r) (segs.map toSeg)
        else if (dictGet? r.entries key0).isSome then
          walk (.vDict r.entries) (segs.map toSeg)
        else .ok default

/-- Python whitespace class for the relevant regexes
(`\s` is space, tab, newline, carriage return, vertical tab, form feed). -/
def pyIsSpace (c : Char) : Bool :=
  c == ' ' || c == '\t' || c == '\n' || c == '\r' || c == '\x0b' || c == '\x0c'

/-- ASCII reading of the regex class `\w`. -/
def isWordChar (c : Char) : Bool :=
  c.isAlphanum || c == '_'

/-- The key class `[\w/]` of body/header key-value pairs. -/
def isKeyChar (c : Char) : Bool :=
  isWordChar c || c == '/'

/-- `value.replace("\n", "\\n")`: each real newline becomes the
two-character sequence backslash-`n`. -/
def escapeNewlinesL : List Char → List Char
  | [] => []
  | '\n' :: rest => '\\' :: 'n' :: escapeNewlinesL rest
  | c :: rest => c :: escapeNewlinesL rest

/-- Leading `+` test (`value.startswith("+")`). -/
def listStartsPlus : List Char → Bool
  | '+' :: _ => true
  | _ => false

/-- `re.sub(r"^\"(.*)\"$", r"\1", value)` without flags: the match needs a
leading quote, an inner span free of newlines (`.` does not cross `\n`), and
a closing quote sitting at the end of the string — or, because `$` also
matches just before a single trailing newline, a closing quote right before
a final newline, which is then kept.  Anything else is left unchanged. -/
def stripSurroundingQuotesL (cs : List Char) : List Char :=
  match cs with
  | '"' :: rest =>
    match rest.reverse with
    | '"' :: midRev =>
      let mid := midRev.reverse
      if mid.all (fun c => c ≠ '\n') then mid else cs
    | '\n' :: '"' :: midRev =>
      let mid := midRev.reverse
      if mid.all (fun c => c ≠ '\n') then mid ++ ['\n'] else cs
    | _ => cs
  | _ => cs

/-- The body-value pipeline of `parse_file` (lines 134-141): escape
newlines, strip one pair of surrounding quotes, and wrap a remaining
leading-`+` value in the spreadsheet formula guard `="…"`. -/
def transformValueL (cs : List Char) : List Char :=
  let v1 := escapeNewlinesL cs
  let v2 := stripSurroundingQuotesL v1
  if listStartsPlus v2 then '=' :: '"' :: (v2 ++ ['"']) else v2

/-- String wrapper of `transformValueL`. -/
def transformValue (s : String) : String :=
  String.mk (transformValueL s.data)

/-- The header-attribute pipeline (line 121): `v.replace('"', '')` — every
double quote is deleted, nothing else happens. -/
def headerAttrValue (s : String) : String :=
  String.mk (s.data.filter (fun c => c ≠ '"'))

/-- Longest prefix satisfying `p` plus the remainder (a greedy character
class such as `\w+` never gives characters back here, because in every
pattern below the following piece can never consume a character of the
class, so backtracking into the run cannot succeed). -/
def takeRun (p : Char → Bool) : List Char → List Char × List Char
  | [] => ([], [])
  | c :: cs =>
    if p c then
      let r := takeRun p cs
      (c :: r.1, r.2)
    else ([], c :: cs)

/-- End-of-line condition for `$` under `re.MULTILINE`: end of input or a
newline immediately following.  With `needEol = false` the condition is
vacuous (patterns without a trailing `$`). -/
def eolOk (needEol : Bool) (cs : List Char) : Bool :=
  !needEol || cs.isEmpty || cs.head? == some '\n'

/-- Lazy search `(.*?)⟨close⟩` (DOTALL): the earliest occurrence of `close`
whose successor satisfies the `$` condition; returns the consumed middle and
the remainder after `close`. -/
def findCloseFrom (needEol : Bool) (close : Char) :
    List Char → Option (List Char × List Char)
  | [] => none
  | c :: cs =>
    if c == close && eolOk needEol cs then some ([], cs)
    else
      match findCloseFrom needEol close cs with
      | some (mid, rest) => some (c :: mid, rest)
      | none => none

/-- Lazy search `(.+?)⟨close⟩` (DOTALL): like `findCloseFrom` but the middle
must contain at least one character, so the closer right at the start is
consumed into the middle instead. -/
def findCloseSkip1 (needEol : Bool) (close : Char) :
    List Char → Option (List Char × List Char)
  | [] => none
  | c :: cs =>
    match findCloseFrom needEol close cs with
    | some (mid, rest) => some (c :: mid, rest)
    | none => none

/-- The value alternation `(\w+\(.+?\)|\".+?\"|\[.+?\]|\S+)` (DOTALL),
optionally followed by `$` (`needEol`).  Alternatives are tried in regex
order; a word-led, quote-led or bracket-led alternative that cannot complete
falls through to the bare `\S+` token, which with `needEol` must reach end
of line unbroken (since `$` cannot hold inside a run of non-space,
non-newline characters, `\S+` cannot shrink to succeed). -/
def matchValue (needEol : Bool) (cs : List Char) :
    Option (List Char × List Char) :=
  let alt4 :=
    let r := takeRun (fun c => !pyIsSpace c) cs
    if r.1.isEmpty then none
    else if needEol && !(r.2.isEmpty || r.2.head? == some '\n') then none
    else some (r.1, r.2)
  match cs with
  | [] => none
  | c :: cs1 =>
    if isWordChar c then
      let w := takeRun isWordChar cs
      match w.2 with
      | '(' :: r2 =>
        match findCloseSkip1 needEol ')' r2 with
        | some (mid, rest) => some (w.1 ++ '(' :: (mid ++ [')']), rest)
        | none => alt4
      | _ => alt4
    else if c == '"' then
      match findCloseSkip1 needEol '"' cs1 with
      | some (mid, rest) => some ('"' :: (mid ++ ['"']), rest)
      | none => alt4
    else if c == '[' then
      match findCloseSkip1 needEol ']' cs1 with
      | some (mid, rest) => some ('[' :: (mid ++ [']']), rest)
      | none => alt4
    else alt4

/-- One attempt of `([\w/]+)\s*=\s*⟨value⟩` at the current position (with a
trailing `$` when `needEol`): a nonempty key run, whitespace, a literal `=`
(the key class and `\s` are disjoint from `=`, so greediness is harmless),
whitespace, then the value alternation. -/
def matchKV (needEol : Bool) (cs : List Char) :
    Option (String × String × List Char) :=
  let k := takeRun isKeyChar cs
  if k.1.isEmpty then none
  else
    let w1 := takeRun pyIsSpace k.2
    match w1.2 with
    | '=' :: cs3 =>
      let w2 := takeRun pyIsSpace cs3
      match matchValue needEol w2.2 with
      | some (v, rest) => some (String.mk k.1, String.mk v, rest)
      | none => none
    | _ => none

/-- One attempt of the header alternative `\[(\w+)(.*?)\]$` at a line start:
`[`, a nonempty word run, then the lazy DOTALL middle up to the earliest `]`
that sits at an end of line. -/
def matchHeaderAt (cs : List Char) : Option (String × String × List Char) :=
  match cs with
  | '[' :: cs1 =>
    let g1 := takeRun isWordChar cs1
    if g1.1.isEmpty then none
    else
      match findCloseFrom true ']' g1.2 with
      | some (mid, rest) => some (String.mk g1.1, String.mk mid, rest)
      | none => none
  | _ => none

/-- A recognized line of `parse_file`'s big findall: a header line (kind and
raw attribute text) or a body key/value line. -/
inductive Tok where
  | header (kind rest : String)
  | body (key value : String)
deriving DecidableEq, Repr

/-- `re.findall` of
`(?:^\[(\w+)(.*?)\]$|^([\w/]+)\s*=\s*(\w+\(.+?\)|\".+?\"|\[.+?\]|\S+)$)`
with DOTALL and MULTILINE: both alternatives are anchored at a line start,
attempts advance one character on failure and jump past a match on success
(the last matched character is never a newline, so the position after a
match is never a line start).  The fuel is the input length plus one; every
step consumes at least one character, so it never runs out. -/
def scanTokensF : Nat → Bool → List Char → List Tok
  | 0, _, _ => []
  | _ + 1, _, [] => []
  | fuel + 1, atStart, c :: rest =>
    if atStart then
      match matchHeaderAt (c :: rest) with
      | some (g1, g2, rest2) => .header g1 g2 :: scanTokensF fuel false rest2
      | none =>
        match matchKV true (c :: rest) with
        | some (k, v, rest2) => .body k v :: scanTokensF fuel false rest2
        | none => scanTokensF fuel (c == '\n') rest
    else scanTokensF fuel (c == '\n') rest

/-- Token scan of a whole text (the first position is a line start). -/
def scanTokens (cs : List Char) : List Tok :=
  scanTokensF (cs.length + 1) true cs

/-- `re.findall(r"([\w/]+)\s*=\s*(\w+\(.+?\)|\".+?\"|\[.+?\]|\S+)", rest)`
(DOTALL, unanchored) over a header's inline attribute text. -/
def scanPairsF : Nat → List Char → List (String × String)
  | 0, _ => []
  | _ + 1, [] => []
  | fuel + 1, c :: rest =>
    match matchKV false (c :: rest) with
    | some (k, v, rest2) => (k, v) :: scanPairsF fuel rest2
    | none => scanPairsF fuel rest

/-- Pair scan of a header's inline attribute text. -/
def scanPairs (cs : List Char) : List (String × String) :=
  scanPairsF (cs.length + 1) cs

/-- The parsed document (class `TSCN`): the flat `resources` list, the four
per-kind lists initialised in `__init__`, and the `scene` attribute set by
the first `gd_scene` header (absent until then). -/
structure TSCN where
  resources : List TSCNResource
  node : List TSCNResource
  ext_resource : List TSCNResource
  sub_resource : List TSCNResource
  connection : List TSCNResource
  scene : Option TSCNResource
deriving DecidableEq, Repr

/-- The four recognized resource kinds set up in `TSCN.__init__`. -/
def knownKinds : List String :=
  ["node", "ext_resource", "sub_resource", "connection"]

/-- Attribute names the `TSCN` class itself exposes (methods and the dunder
machinery), for which `getattr(self, resource_type)` yields a non-list value
and `… + [rsc]` then raises `TypeError` rather than `AttributeError`. -/
def tscnClassAttrs : List String :=
  ["parse_file", "select", "__init__", "__doc__", "__class__", "__delattr__",
   "__dict__", "__dir__", "__eq__", "__format__", "__ge__",
   "__getattribute__", "__gt__", "__hash__", "__init_subclass__", "__le__",
   "__lt__", "__module__", "__ne__", "__new__", "__reduce__",
   "__reduce_ex__", "__repr__", "__setattr__", "__sizeof__", "__str__",
   "__subclasshook__", "__weakref__"]

/-- The header-attribute dict comprehension
`{k: v.replace('"', '') for (k, v) in pairs}`. -/
def mkAttrs (pairs : List (String × String)) : List (String × String) :=
  pairs.foldl (fun d kv => dictSet d kv.1 (headerAttrValue kv.2)) []

/-- One iteration of `parse_file`'s token loop over the resources built so
far (head of the list = the currently open resource).
A header builds `TSCNResource(resource_type, **pairs)` — a pair named
`resource_type` (or `self`) collides with a positional parameter and raises
`TypeError` — and then dispatches on the kind: `gd_scene` is stored in
`self.scene`; the four known kinds, and any kind naming an existing
list-valued attribute (`resources`), are appended via
`setattr(self, kind, getattr(self, kind) + [rsc])`; a kind naming a
non-list attribute (`scene` once set, or a class attribute) raises
`TypeError` from `… + [rsc]`; any other kind raises `AttributeError` from
the defaultless `getattr`.  A body line indexes `rsc.entries` — with no
open resource `rsc` is `None` (`AttributeError`), and when a header
attribute literally named `entries` replaced the dict with a string, item
assignment raises `TypeError`. -/
def stepTok (st : List TSCNResource) (t : Tok) :
    Except PyExc (List TSCNResource) :=
  match t with
  | .header kind rest =>
    let pairs := scanPairs rest.data
    if pairs.any (fun kv => kv.1 == "resource_type" || kv.1 == "self") then
      .error .typeError
    else if kind == "gd_scene" || knownKinds.any (fun t => kind == t)
        || kind == "resources" then
      .ok (⟨kind, mkAttrs pairs, []⟩ :: st)
    else if kind == "scene" then
      if st.any (fun r => r.resource_type == "gd_scene") then
        .error .typeError
      else .error .attributeError
    else if tscnClassAttrs.any (fun t => kind == t) then .error .typeError
    else .error .attributeError
  | .body k v =>
    match st with
    | [] => .error .attributeError
    | cur :: rest =>
      if (dictGet? cur.attrs "entries").isSome then .error .typeError
      else .ok ({ cur with entries := dictSet cur.entries k (transformValue v) } :: rest)

/-- Run the token loop; the first raised exception aborts the parse. -/
def runToks : List TSCNResource → List Tok → Except PyExc (List TSCNResource)
  | st, [] => .ok st
  | st, t :: ts =>
    match stepTok st t with
    | .error e => .error e
    | .ok st2 => runToks st2 ts

/-- Reassemble the `TSCN` object from the in-order resource list.  Every
resource is appended once to `resources` — except a resource of kind
`resources`, where `setattr(self, "resources", self.resources + [rsc])`
followed by `self.resources.append(rsc)` inserts it twice.  The per-kind
lists collect their kinds in file order; `scene` holds the last `gd_scene`
resource (each new one overwrites the attribute). -/
def buildTSCN (rs : List TSCNResource) : TSCN :=
  { resources :=
      (rs.map (fun r =>
        if r.resource_type == "resources" then [r, r] else [r])).flatten
  , node := rs.filter (fun r => r.resource_type == "node")
  , ext_resource := rs.filter (fun r => r.resource_type == "ext_resource")
  , sub_resource := rs.filter (fun r => r.resource_type == "sub_resource")
  , connection := rs.filter (fun r => r.resource_type == "connection")
  , scene := (rs.filter (fun r => r.resource_type == "gd_scene")).getLast? }

/-- `TSCN.parse_file` on the file's character content. -/
def TSCN.parseChars (cs : List Char) : Except PyExc TSCN :=
  match runToks [] (scanTokens cs) with
  | .error e => .error e
  | .ok st => .ok (buildTSCN st.reverse)

/-- `TSCN(path)` with the file read already performed: parse the text. -/
def TSCN.parse (text : String) : Except PyExc TSCN :=
  TSCN.parseChars text.data

/-- The clause-name class `[^!<>=\s]` of the selector clause regex. -/
def isSelNameChar (c : Char) : Bool :=
  !(c == '!' || c == '<' || c == '>' || c == '=' || pyIsSpace c)

/-- The operator class `[!<>=]`. -/
def isOpChar (c : Char) : Bool :=
  c == '!' || c == '<' || c == '>' || c == '='

/-- Greedy `(.*)\]` without DOTALL: the maximal newline-free run must end in
a `]`; the group is everything before the last `]` of that run. -/
def findLastClose : List Char → Option (List Char × List Char)
  | [] => none
  | c :: cs =>
    if c == '\n' then none
    else
      match findLastClose cs with
      | some (mid, rest) => some (c :: mid, rest)
      | none => if c == ']' then some ([], cs) else none

/-- One attempt of `\[([^!<>=\s]+)\s?([!<>=]+)\s?(.*)\]` just after a `[`:
a nonempty name run (its class excludes the operator characters and
whitespace, so greediness never needs undoing), at most one whitespace, a
nonempty operator run, at most one whitespace, then the greedy remainder up
to the last `]` on the line.  When `\s?` consumes a character and the rest
fails, retrying with the empty `\s?` cannot succeed (the skipped character
is either no operator/closing character or a newline the remainder cannot
cross), so consuming first is faithful. -/
def matchClauseAt (cs : List Char) :
    Option ((String × String × String) × List Char) :=
  let g1 := takeRun isSelNameChar cs
  if g1.1.isEmpty then none
  else
    let afterWs1 :=
      match g1.2 with
      | c :: r => if pyIsSpace c then r else c :: r
      | [] => []
    let g2 := takeRun isOpChar afterWs1
    if g2.1.isEmpty then none
    else
      let afterWs2 :=
        match g2.2 with
        | c :: r => if pyIsSpace c then r else c :: r
        | [] => []
      match findLastClose afterWs2 with
      | some (g3, rest) =>
        some ((String.mk g1.1, String.mk g2.1, String.mk g3), rest)
      | none => none

/-- `re.findall` of the clause pattern: attempts start at every `[`,
failures advance one character, successes resume after the matched `]`. -/
def scanClausesF : Nat → List Char → List (String × String × String)
  | 0, _ => []
  | _ + 1, [] => []
  | fuel + 1, c :: rest =>
    if c == '[' then
      match matchClauseAt rest with
      | some (q, rest2) => q :: scanClausesF fuel rest2
      | none => scanClausesF fuel rest
    else scanClausesF fuel rest

/-- Clause scan of a selector expression. -/
def scanClauses (cs : List Char) : List (String × String × String) :=
  scanClausesF (cs.length + 1) cs

/-- `re.match("^.*?(?=\[|$)", string)`: the lazy prefix stops at the first
`[`, or at the end of the string, or just before a single trailing newline;
since `.` cannot cross a newline, an interior newline before any of those
positions makes the whole match fail (`None`, and the subscript then raises
the `TypeError` that `Selector.parse` converts to its `ValueError`). -/
def kindOfL : List Char → List Char → Option (List Char)
  | acc, [] => some acc.reverse
  | acc, c :: rest =>
    if c == '[' then some acc.reverse
    else if c == '\n' then
      if rest.isEmpty then some acc.reverse else none
    else kindOfL (c :: acc) rest

/-- The selector kind prefix extracted by `Selector.parse`. -/
def kindOf (s : String) : Option String :=
  (kindOfL [] s.data).map String.mk

/-- A compiled clause map: path ↦ (operator, right-hand side). -/
abbrev SelAttrs := List (String × String × String)

/-- A compiled selector: kind ↦ clause map (always a single-key dict when
produced by `Selector.parse`). -/
abbrev Selectors := List (String × SelAttrs)

/-- `Selector.parse` on a string source (src/datamine.py lines 67-85): the
kind prefix must match, then the clause findall populates the attrs dict
(`attrs[attr] = relation`, insertion-ordered with in-place updates). -/
def Selector.parseStr (s : String) : Except PyExc Selectors :=
  match kindOf s with
  | none => .error .valueError
  | some k =>
    .ok [(k, (scanClauses s.data).foldl (fun d q => dictSet d q.1 q.2) [])]

/-- The argument of `Selector.parse`: a string, or any non-string object on
which `re.match` raises the `TypeError` converted to `ValueError`. -/
inductive SelInput where
  | str (s : String)
  | nonstr
deriving DecidableEq, Repr

/-- `Selector.parse` over both argument shapes. -/
def Selector.parse : SelInput → Except PyExc Selectors
  | .str s => Selector.parseStr s
  | .nonstr => .error .valueError

/-- Characters of an appended string. -/
theorem strData_append (s t : String) : (s ++ t).data = s.data ++ t.data := by
  cases s
  cases t
  rfl

/-- A slash-free character list splits into itself alone. -/
theorem splitOnSlash_no_slash (cs : List Char) (h : '/' ∉ cs) :
    splitOnSlash cs = [cs] := by
  induction cs with
  | nil => rfl
  | cons c rest ih =>
    have hc : c ≠ '/' := fun e => h (e ▸ List.mem_cons_self c rest)
    have hr : '/' ∉ rest := fun m => h (List.mem_cons_of_mem c m)
    simp [splitOnSlash, hc, ih hr]

/-- Splitting at an explicit slash after a slash-free prefix. -/
theorem splitOnSlash_append (a b : List Char) (h : '/' ∉ a) :
    splitOnSlash (a ++ '/' :: b) = a :: splitOnSlash b := by
  induction a with
  | nil => simp [splitOnSlash]
  | cons c rest ih =>
    have hc : c ≠ '/' := fun e => h (e ▸ List.mem_cons_self c rest)
    have hr : '/' ∉ rest := fun m => h (List.mem_cons_of_mem c m)
    simp [splitOnSlash, hc, ih hr]

/-- Digit strings contain no slash. -/
theorem no_slash_of_numeric (s : String) (h : pyIsNumeric s = true) :
    '/' ∉ s.data := by
  intro hm
  have hall := (Bool.and_eq_true _ _ |>.mp h).2
  have := (List.all_eq_true.mp hall) '/' hm
  simp at this

/-- `scanClausesF` finds nothing in bracket-free text. -/
theorem scanClausesF_no_bracket (fuel : Nat) (cs : List Char)
    (h : '[' ∉ cs) : scanClausesF fuel cs = [] := by
  induction fuel generalizing cs with
  | zero => rfl
  | succ fuel ih =>
    cases cs with
    | nil => rfl
    | cons c rest =>
      have hc : ¬(c == '[') = true := by
        simp only [beq_iff_eq]
        exact fun e => h (e ▸ List.mem_cons_self c rest)
      have hr : '[' ∉ rest := fun m => h (List.mem_cons_of_mem c m)
      simp only [scanClausesF, Bool.not_eq_true] at hc ⊢
      rw [if_neg (by simp [hc])]
      exact ih rest hr

/-! ## Claim C1 -/

/-- C9: `query` resolves the first segment against the typed attributes
first (`hasattr`), consulting `entries` only when no attribute of that name
exists, and an empty path or a non-string/non-list path always returns the
caller-supplied default. -/
theorem claim_C9 (r : TSCNResource) (d : PyVal) :
    (TSCNResource.query r (.list []) d = .ok d) ∧
    (TSCNResource.query r .other d = .ok d) ∧
    (∀ s rest, pyIsNumeric s = false → hasattrR r s = true →
      TSCNResource.query r (.list (s :: rest)) d =
        walk (.vRes r) ((s :: rest).map toSeg)) ∧
    (∀ s rest, pyIsNumeric s = false → hasattrR r s = false →
      (dictGet? r.entries s).isSome = true →
      TSCNResource.query r (.list (s :: rest)) d =
        walk (.vDict r.entries) ((s :: rest).map toSeg)) := by
  refine ⟨rfl, rfl, ?_, ?_⟩
  · intro s rest hnum hattr
    have hts : toSeg s = .key s := by simp [toSeg, hnum]
    simp only [TSCNResource.query, segsOf]
    rw [hts]
    simp only [hattr, if_true]
  · intro s rest hnum hattr hent
    have hts : toSeg s = .key s := by simp [toSeg, hnum]
    simp only [TSCNResource.query, segsOf]
    rw [hts]
    simp only [hattr, hent, if_true, Bool.false_eq_true, if_false]

/-- C9 witness: a Resource carrying both an attribute `x = "A"` and an entry
`x = "B"`; the attribute wins, and the empty path yields the default. -/
theorem claim_C9_witness :
    pyIsNumeric "x" = false ∧
    hasattrR ⟨"node", [("x", "A")], [("x", "B")]⟩ "x" = true ∧
    TSCNResource.query ⟨"node", [("x", "A")], [("x", "B")]⟩ (.list ["x"])
      (.vStr "D") = .ok (.vStr "A") ∧
    TSCNResource.query ⟨"node", [("x", "A")], [("x", "B")]⟩ (.list [])
      (.vStr "D") = .ok (.vStr "D") := by
  refine ⟨by decide, by decide, ?_, ?_⟩
  · have h :=
      (claim_C9 ⟨"node", [("x", "A")], [("x", "B")]⟩ (.vStr "D")).2.2.1
        "x" [] (by decide) (by decide)
    exact h.trans (by decide)
  · exact (claim_C9 ⟨"node", [("x", "A")], [("x", "B")]⟩ (.vStr "D")).1

/-! ## Claim C10 -/

/-- C10: entry values are stored as plain strings (array literals kept as
opaque text), so a numeric segment following an entry key indexes into the
raw character sequence of that text; in particular the parsed entry
`arr = [1, 2]` queried with `arr/0` yields the one-character string `[`. -/
theorem claim_C10 :
    (∀ (r : TSCNResource) (k v sIdx : String) (d : PyVal),
      hasattrR r k = false →
      dictGet? r.entries k = some v →
      pyIsNumeric k = false →
      '/' ∉ k.data →
      pyIsNumeric sIdx = true →
      TSCNResource.query r (.str (k ++ "/" ++ sIdx)) d =
        (match v.data.get? (natOfDigits sIdx.data) with
         | some c => .ok (.vStr (String.mk [c]))
         | none => .error .indexError)) ∧
    TSCN.parse "[node]\narr = [1, 2]" =
      .ok { resources := [⟨"node", [], [("arr", "[1, 2]")]⟩]
          , node := [⟨"node", [], [("arr", "[1, 2]")]⟩]
          , ext_resource := [], sub_resource := [], connection := []
          , scene := none } ∧
    TSCNResource.query ⟨"node", [], [("arr", "[1, 2]")]⟩ (.str "arr/0")
      (.vStr "X") = .ok (.vStr "[") := by
  refine ⟨?_, by decide, by decide⟩
  intro r k v sIdx d hattr hent hknum hkslash hnum
  have hdata : (k ++ "/" ++ sIdx).data = k.data ++ '/' :: sIdx.data := by
    have hs : String.data "/" = ['/'] := rfl
    rw [strData_append, strData_append, hs, List.append_assoc,
      List.singleton_append]
  have hsplit : splitOnSlash ((k ++ "/" ++ sIdx).data) =
      k.data :: splitOnSlash sIdx.data := by
    rw [hdata]
    exact splitOnSlash_append _ _ hkslash
  have hsplit2 : splitOnSlash sIdx.data = [sIdx.data] :=
    splitOnSlash_no_slash _ (no_slash_of_numeric _ hnum)
  have hsegs : segsOf (.str (k ++ "/" ++ sIdx)) = some [k, sIdx] := by
    simp only [segsOf, hsplit, hsplit2, List.map]
  have htk : toSeg k = .key k := by simp [toSeg, hknum]
  have hti : toSeg sIdx = .idx (natOfDigits sIdx.data) := by
    simp [toSeg, hnum]
  simp only [TSCNResource.query, hsegs]
  rw [htk]
  simp only [hattr, Bool.false_eq_true, if_false, hent, Option.isSome_some,
    if_true, List.map]
  rw [htk, hti]
  simp only [walk, pyGetitem, hent]
  cases hg : v.data.get? (natOfDigits sIdx.data) <;> simp [walk]

/-- C10 witness: the general statement applied to the parsed `arr` entry at
index 1, yielding the raw character `1`. -/
theorem claim_C10_witness :
    hasattrR ⟨"node", [], [("arr", "[1, 2]")]⟩ "arr" = false ∧
    dictGet? (TSCNResource.entries ⟨"node", [], [("arr", "[1, 2]")]⟩)
      "arr" = some "[1, 2]" ∧
    TSCNResource.query ⟨"node", [], [("arr", "[1, 2]")]⟩ (.str "arr/1")
      (.vStr "X") = .ok (.vStr "1") := by
  refine ⟨by decide, by decide, ?_⟩
  have h := claim_C10.1 ⟨"node", [], [("arr", "[1, 2]")]⟩ "arr" "[1, 2]"
    "1" (.vStr "X") (by decide) (by decide) (by decide) (by decide)
    (by decide)
  exact h.trans (by decide)

/-! ## Claim C8 -/

/-- C8: a body value beginning with `+` after newline escaping and quote
stripping is stored in the formula-guarded form `="…"`, others are stored
unwrapped; `+10%` becomes `="+10%"`, `10%` stays `10%`, end to end through
the parser. -/
theorem claim_C8 :
    (∀ v : String,
      transformValue v =
        (if listStartsPlus (stripSurroundingQuotesL (escapeNewlinesL v.data))
         then String.mk ('=' :: '"' ::
           (stripSurroundingQuotesL (escapeNewlinesL v.data) ++ ['"']))
         else String.mk
           (stripSurroundingQuotesL (escapeNewlinesL v.data)))) ∧
    transformValue "+10%" = "=\"+10%\"" ∧
    transformValue "10%" = "10%" ∧
    TSCN.parse "[node]\nk = +10%\nj = 10%" =
      .ok { resources := [⟨"node", [], [("k", "=\"+10%\""), ("j", "10%")]⟩]
          , node := [⟨"node", [], [("k", "=\"+10%\""), ("j", "10%")]⟩]
          , ext_resource := [], sub_resource := [], connection := []
          , scene := none } := by
  refine ⟨?_, by decide, by decide, by decide⟩
  intro v
  by_cases h : listStartsPlus (stripSurroundingQuotesL (escapeNewlinesL v.data)) = true
  · simp [transformValue, transformValueL, h]
  · simp only [Bool.not_eq_true] at h
    simp [transformValue, transformValueL, h]

/-! ## Claim C3 -/

/-- C3 counterexample: the header attribute value `+1` is stored verbatim as
`+1`, while the body pipeline would have produced the formula guard
`="+1"` — header attribute values do not undergo the body's
literal-extraction rules. -/
theorem claim_C3_counterexample :
    TSCN.parse "[node a=+1]" =
      .ok { resources := [⟨"node", [("a", "+1")], []⟩]
          , node := [⟨"node", [("a", "+1")], []⟩]
          , ext_resource := [], sub_resource := [], connection := []
          , scene := none } ∧
    transformValue "+1" = "=\"+1\"" ∧
    headerAttrValue "+1" = "+1" ∧
    ("+1" : String) ≠ "=\"+1\"" := by
  refine ⟨by decide, by decide, by decide, by decide⟩

/-- C3 (amended): header attribute values receive only double-quote
deletion (`v.replace('"', '')`) — no newline escaping and no `+`-prefix
guarding — so for every value beginning with `+` the header pipeline and
the body pipeline disagree: the body stores the guard `="…"`, the header
stores a string still beginning with `+`. -/
theorem claim_C3 (v : String) (h : listStartsPlus v.data = true) :
    transformValue v = String.mk ('=' :: '"' ::
      (stripSurroundingQuotesL (escapeNewlinesL v.data) ++ ['"'])) ∧
    headerAttrValue v ≠ transformValue v := by
  obtain ⟨t, ht⟩ : ∃ t, v.data = '+' :: t := by
    cases hv : v.data with
    | nil => rw [hv] at h; exact absurd h (by simp [listStartsPlus])
    | cons c rest =>
      rw [hv] at h
      by_cases hc : c = '+'
      · exact ⟨rest, by rw [hc]⟩
      · exact absurd h (by simp [listStartsPlus, hc])
  have hesc : escapeNewlinesL v.data = '+' :: escapeNewlinesL t := by
    rw [ht]; rfl
  have hstrip :
      stripSurroundingQuotesL (escapeNewlinesL v.data) =
        '+' :: escapeNewlinesL t := by
    rw [hesc]; rfl
  have hplus :
      listStartsPlus (stripSurroundingQuotesL (escapeNewlinesL v.data)) =
        true := by
    rw [hstrip]; rfl
  have hguard : transformValue v = String.mk ('=' :: '"' ::
      (stripSurroundingQuotesL (escapeNewlinesL v.data) ++ ['"'])) := by
    simp [transformValue, transformValueL, hplus]
  refine ⟨hguard, ?_⟩
  intro heq
  have hdat := congrArg String.data heq
  have hhead : headerAttrValue v = String.mk ('+' :: t.filter (fun c => c ≠ '"')) := by
    simp [headerAttrValue, ht]
  rw [hhead, hguard] at hdat
  simp at hdat

/-- C3 witness: the amended theorem at `+10%`. -/
theorem claim_C3_witness :
    listStartsPlus (String.data "+10%") = true ∧
    transformValue "+10%" = String.mk ('=' :: '"' ::
      (stripSurroundingQuotesL (escapeNewlinesL (String.data "+10%")) ++
        ['"'])) ∧
    headerAttrValue "+10%" ≠ transformValue "+10%" :=
  ⟨by decide, (claim_C3 "+10%" (by decide)).1, (claim_C3 "+10%" (by decide)).2⟩

/-! ## Claim C2 -/

/-- C2 counterexample: a header line of the unanticipated kind `foo` makes
parsing raise `AttributeError` (the defaultless `getattr(self, "foo")`),
instead of completing and preserving the Resource as the claim states. -/
theorem claim_C2_counterexample :
    TSCN.parse "[foo]" = .error .attributeError ∧
    (TSCN.parse "[foo]").isOk = false := by
  refine ⟨by decide, by decide⟩

/-- C2 (amended): when the scanner recognizes a header line whose kind is
outside the handled set (the four known kinds, `gd_scene`, and the
incidental existing attributes `resources`/`scene`) and is no attribute of
the `TSCN` class, parsing raises `AttributeError` — the Resource of the
unanticipated kind is not preserved. -/
theorem claim_C2 (cs : List Char) (k r : String) (rest : List Tok)
    (hscan : scanTokens cs = Tok.header k r :: rest)
    (hpairs : (scanPairs r.data).any
      (fun kv => kv.1 == "resource_type" || kv.1 == "self") = false)
    (hk : k ∉ ["gd_scene", "node", "ext_resource", "sub_resource",
      "connection", "resources", "scene"])
    (hcls : k ∉ tscnClassAttrs) :
    TSCN.parseChars cs = .error .attributeError := by
  have hg : (k == "gd_scene") = false := by
    simp only [beq_eq_false_iff_ne, ne_eq]
    exact fun e => hk (by simp [e])
  have hr : (k == "resources") = false := by
    simp only [beq_eq_false_iff_ne, ne_eq]
    exact fun e => hk (by simp [e])
  have hs : (k == "scene") = false := by
    simp only [beq_eq_false_iff_ne, ne_eq]
    exact fun e => hk (by simp [e])
  have hknown : knownKinds.any (fun t => k == t) = false := by
    rw [List.any_eq_false]
    intro t ht
    simp only [beq_iff_eq]
    intro e
    apply hk
    subst e
    simp only [knownKinds] at ht
    simp only [List.mem_cons, List.mem_singleton] at ht ⊢
    tauto
  have hcls2 : tscnClassAttrs.any (fun t => k == t) = false := by
    rw [List.any_eq_false]
    intro t ht
    simp only [beq_iff_eq]
    exact fun e => hcls (e ▸ ht)
  simp only [TSCN.parseChars, hscan, runToks, stepTok, hpairs, hg, hr, hs,
    hknown, hcls2, Bool.or_self, Bool.or_false, Bool.false_eq_true,
    if_false]

/-- C2 witness: the amended theorem at the single-header text `[foo]`. -/
theorem claim_C2_witness :
    scanTokens (String.data "[foo]") = [Tok.header "foo" ""] ∧
    TSCN.parseChars (String.data "[foo]") = .error .attributeError :=
  ⟨by decide,
   claim_C2 (String.data "[foo]") "foo" "" [] (by decide) (by decide)
     (by decide) (by decide)⟩

/-! ## Claim C5 -/

/-- C5 counterexample: the input `StartHealth = 50` contains no header
line, yet parsing raises `AttributeError` (`rsc` is still `None` when the
body line is attached) instead of succeeding with an empty Document. -/
theorem claim_C5_counterexample :
    TSCN.parse "StartHealth = 50" = .error .attributeError ∧
    (TSCN.parse "StartHealth = 50").isOk = false := by
  refine ⟨by decide, by decide⟩

/-- C5 (amended): an input in which the scanner recognizes nothing — no
header line and no body-shaped line; malformed tokens are skipped — parses
to the empty Document; an input whose first recognized line is a body line
raises `AttributeError`; a header with no inline attributes yields a
Resource with an empty attribute set; and text of only malformed tokens
parses to the empty Document. -/
theorem claim_C5 :
    (∀ cs, scanTokens cs = [] →
      TSCN.parseChars cs = .ok ⟨[], [], [], [], [], none⟩) ∧
    (∀ cs k v rest, scanTokens cs = Tok.body k v :: rest →
      TSCN.parseChars cs = .error .attributeError) ∧
    TSCN.parse "[node]" =
      .ok { resources := [⟨"node", [], []⟩], node := [⟨"node", [], []⟩]
          , ext_resource := [], sub_resource := [], connection := []
          , scene := none } ∧
    TSCN.parse "???" = .ok ⟨[], [], [], [], [], none⟩ ∧
    TSCN.parse "a = 1" = .error .attributeError := by
  refine ⟨?_, ?_, by decide, by decide, by decide⟩
  · intro cs h
    simp only [TSCN.parseChars, h, runToks]
    rfl
  · intro cs k v rest h
    simp only [TSCN.parseChars, h, runToks, stepTok]

/-- C5 witness: the amended theorem at the all-malformed text `???`. -/
theorem claim_C5_witness :
    scanTokens (String.data "???") = [] ∧
    TSCN.parseChars (String.data "???") = .ok ⟨[], [], [], [], [], none⟩ :=
  ⟨by decide, claim_C5.1 (String.data "???") (by decide)⟩

/-! ## Claim C7 -/

/-- C7 counterexample: the string source `a\nb` makes `Selector.parse`
raise the invalid-selector error (the kind regex cannot cross the interior
newline), refuting the claim that every string source succeeds. -/
theorem claim_C7_counterexample :
    Selector.parse (.str "a\nb") = .error .valueError ∧
    (Selector.parse (.str "a\nb")).isOk = false := by
  refine ⟨by decide, by decide⟩

/-- C7 (amended): selector compilation fails with the invalid-selector
error exactly when the kind portion cannot be extracted — for every
non-string source, and for a string source exactly when the kind regex
finds no match (an interior newline blocking every stop position);
otherwise it produces the kind mapped to the clause dict, which is empty
whenever the expression has no `[` at all. -/
theorem claim_C7 :
    Selector.parse .nonstr = .error .valueError ∧
    (∀ s k, kindOf s = some k →
      Selector.parseStr s =
        .ok [(k, (scanClauses s.data).foldl
          (fun d q => dictSet d q.1 q.2) [])]) ∧
    (∀ s, kindOf s = none → Selector.parseStr s = .error .valueError) ∧
    (∀ cs, '[' ∉ cs → scanClauses cs = []) := by
  refine ⟨rfl, ?_, ?_, ?_⟩
  · intro s k h
    simp [Selector.parseStr, h]
  · intro s h
    simp [Selector.parseStr, h]
  · intro cs h
    exact scanClausesF_no_bracket _ _ h

/-- C7 witness: the amended theorem at the clause-free source `node`. -/
theorem claim_C7_witness :
    kindOf "node" = some "node" ∧
    Selector.parseStr "node" = .ok [("node", [])] ∧
    scanClauses (String.data "node") = [] := by
  refine ⟨by decide, ?_, by decide⟩
  exact (claim_C7.2.1 "node" "node" (by decide)).trans (by decide)

/-! ## Claim C4 -/

